import Mathlib

/-!
Verification of the workflow-engine core of the lazy-AgentX repository.

The engine lives in `engine/WorkflowEngine.ts`; node implementations derive
from `nodes/BaseNode.ts` (JiraNode, AndroidNode, GoogleChatNode). This file
shallowly embeds the data model (`types/index.ts`), the engine's functions
(`findStartNode`, `getNextNodes`, `extractCredentials`, `createNodeInstance`,
`executeNodeChain`, `executeWorkflow`) and the data-merging / credential
checking shapes of the node implementations, and proves the specification's
claims about them.

Modelling conventions:
* JavaScript values stored in data bags are modelled by `Val` (strings,
  integers, booleans, null). Credential values in the repository are nested
  objects; only their presence and truthiness matter to the verified code
  paths, so a flat `Val` suffices.
* A JavaScript object is an insertion-ordered association list
  (`WData`); object-literal construction and spread (`{a, ...b}`) are
  `objInsert`/`objSpread`, which overwrite in place exactly as JS does.
* `async`/`Promise` and thrown exceptions: a node's `execute` is a pure
  function `WData → Except String NodeExecuteResult`; `Except.error`
  models a rejected promise / thrown exception, and the engine's
  `try`/`catch` is the corresponding `match`.
* The unbounded recursion of `executeNodeChain` is given a fuel parameter;
  the result `none` means the recursion did not finish within the given
  fuel, so "runs forever" is "`none` for every fuel".
* `WorkflowExecution.id`, `startTime` and the wall-clock value of `endTime`
  are environment-dependent (`Date.now()`); the record keeps only whether
  `endTime` was assigned (`endTimeSet`), which is what the claims mention.
-/

namespace AgentX

/-- A JavaScript value stored in a workflow data bag. -/
inductive Val where
  | str : String → Val
  | num : Int → Val
  | bool : Bool → Val
  | null : Val
deriving DecidableEq, Repr

/-- `WorkflowData = Record<string, any>`: an insertion-ordered object. -/
abbrev WData := List (String × Val)

/-- Property read `o[k]` (first — and in a well-formed object only — binding). -/
def objGet (o : WData) (k : String) : Option Val :=
  (o.find? (fun p => p.1 = k)).map (fun p => p.2)

/-- Property read taking the LAST binding, which is what repeated JS
assignments leave behind when a key occurs twice. -/
def objGetLast (o : WData) (k : String) : Option Val :=
  (o.reverse.find? (fun p => p.1 = k)).map (fun p => p.2)

/-- JS property assignment `o[k] = v`: overwrite in place, else append. -/
def objInsert (o : WData) (k : String) (v : Val) : WData :=
  if o.any (fun p => p.1 = k) then
    o.map (fun p => if p.1 = k then (k, v) else p)
  else o ++ [(k, v)]

/-- JS spread `{...o, ...src}`: entries of `src` assigned one by one into `o`. -/
def objSpread (o : WData) (src : WData) : WData :=
  src.foldl (fun acc p => objInsert acc p.1 p.2) o

/-- Object literal built from a key/value sequence (later duplicates win). -/
def objOfList (l : WData) : WData := objSpread [] l

/-- `WorkflowConnection` from `types/index.ts`. -/
structure WorkflowConnection where
  node : String
  type : String
  index : Nat
deriving DecidableEq, Repr

/-- `WorkflowNode` from `types/index.ts` (the presentational `position`
field is omitted; no claim mentions it). -/
structure WorkflowNode where
  id : String
  type : String
  name : String
  parameters : WData
  credentials : Option WData
deriving DecidableEq, Repr

/-- `WorkflowDefinition` from `types/index.ts` (`active` and `settings` are
omitted; the engine never reads them). -/
structure WorkflowDefinition where
  id : String
  name : String
  nodes : List WorkflowNode
  connections : List (String × List WorkflowConnection)
deriving DecidableEq, Repr

/-- `WorkflowStatus` from `types/index.ts`. -/
inductive WorkflowStatus where
  | running
  | success
  | error
  | cancelled
deriving DecidableEq, Repr

/-- `WorkflowExecution` from `types/index.ts` (see the header for the
treatment of `id`/`startTime`/`endTime`). -/
structure WorkflowExecution where
  status : WorkflowStatus
  data : WData
  error : Option String
  endTimeSet : Bool
deriving DecidableEq, Repr

/-- `NodeExecuteResult` from `types/index.ts`. -/
structure NodeExecuteResult where
  success : Bool
  data : Option WData
  error : Option String
deriving DecidableEq, Repr

/-- A constructed node instance: its `execute` method.  `Except.error`
models `execute` throwing / returning a rejected promise. -/
structure NodeInst where
  execute : WData → Except String NodeExecuteResult

/-- A registry entry: `new NodeClass(node, credentials)`. -/
abbrev NodeCtor := WorkflowNode → WData → NodeInst

/-- The engine's `nodeRegistry : Map<string, NodeConstructor>`. -/
abbrev Registry := List (String × NodeCtor)

/-- `Map.get` on the registry. -/
def regFind (reg : Registry) (t : String) : Option NodeCtor :=
  (reg.find? (fun p => p.1 = t)).map (fun p => p.2)

/-- The node ids collected into `connectedNodes` by `findStartNode`
(`WorkflowEngine.ts` lines 68-74).  The TS code puts them in a `Set` whose
only observable use is membership, so a flat list is an equivalent model. -/
def connectedNodeIds (w : WorkflowDefinition) : List String :=
  (w.connections.map (fun kv => kv.2.map (fun c => c.node))).flatten

/-- The second loop of `findStartNode` (lines 76-80): first node whose id
was not collected. -/
def findStartNodeAux (connected : List String) : List WorkflowNode → Option WorkflowNode
  | [] => none
  | n :: rest =>
    if connected.contains n.id then findStartNodeAux connected rest else some n

/-- `WorkflowEngine.findStartNode`. -/
def findStartNode (w : WorkflowDefinition) : Option WorkflowNode :=
  findStartNodeAux (connectedNodeIds w) w.nodes

/-- `workflow.connections[currentNodeId] || []`. -/
def connsOf (w : WorkflowDefinition) (currentNodeId : String) : List WorkflowConnection :=
  ((w.connections.find? (fun kv => kv.1 = currentNodeId)).map (fun kv => kv.2)).getD []

/-- `WorkflowEngine.getNextNodes`: each declared connection target resolved
against the node list, keeping only the targets that exist. -/
def getNextNodes (w : WorkflowDefinition) (currentNodeId : String) : List WorkflowNode :=
  (connsOf w currentNodeId).filterMap
    (fun c => w.nodes.find? (fun n => n.id = c.node))

/-- `WorkflowEngine.extractCredentials`: `node.credentials || {}`; the
workflow argument is ignored (`_workflow` in the source). -/
def extractCredentials (node : WorkflowNode) (_w : WorkflowDefinition) : WData :=
  node.credentials.getD []

/-- `WorkflowEngine.createNodeInstance`: registry lookup, then
`new NodeClass(node, credentials)`; unknown types throw. -/
def createNodeInstance (reg : Registry) (node : WorkflowNode) (w : WorkflowDefinition) :
    Except String NodeInst :=
  match regFind reg node.type with
  | none => Except.error ("Unknown node type: " ++ node.type)
  | some ctor => Except.ok (ctor node (extractCredentials node w))

/-- The message of the error thrown on a `success:false` result
(template literal prints a missing `error` field as "undefined"). -/
def failMsg (r : NodeExecuteResult) : String :=
  "Node execution failed: " ++ r.error.getD "undefined"

/-- `WorkflowEngine.executeNodeChain` with fuel.  `none` = the recursion
did not finish within `fuel` steps; `some (Except.error e)` = a throw
(unknown type, execute threw, or a `success:false` result); `some (Except.ok d)`
= the end of the chain with final data `d`. -/
def executeNodeChain (reg : Registry) :
    Nat → WorkflowDefinition → WorkflowNode → WData → Option (Except String WData)
  | 0, _, _, _ => none
  | fuel + 1, w, cur, input =>
    match createNodeInstance reg cur w with
    | Except.error e => some (Except.error e)
    | Except.ok inst =>
      match inst.execute input with
      | Except.error e => some (Except.error e)
      | Except.ok result =>
        if result.success then
          match getNextNodes w cur.id with
          | [] => some (Except.ok (result.data.getD []))
          | next :: _ => executeNodeChain reg fuel w next (result.data.getD [])
        else some (Except.error (failMsg result))

/-- The ids of the nodes whose `execute` is invoked by `executeNodeChain`,
in invocation order (same recursion as `executeNodeChain`; a node whose
instantiation throws is not invoked, a node whose `execute` throws is). -/
def chainTrace (reg : Registry) :
    Nat → WorkflowDefinition → WorkflowNode → WData → List String
  | 0, _, _, _ => []
  | fuel + 1, w, cur, input =>
    match createNodeInstance reg cur w with
    | Except.error _ => []
    | Except.ok inst =>
      match inst.execute input with
      | Except.error _ => [cur.id]
      | Except.ok result =>
        if result.success then
          match getNextNodes w cur.id with
          | [] => [cur.id]
          | next :: _ => cur.id :: chainTrace reg fuel w next (result.data.getD [])
        else [cur.id]

/-- `WorkflowEngine.executeWorkflow`: build the execution record, find the
start node, run the chain, and turn any throw into a status-`error` record
whose `data` is still the original `inputData`. -/
def executeWorkflow (reg : Registry) (fuel : Nat) (w : WorkflowDefinition)
    (inputData : WData) : Option WorkflowExecution :=
  match findStartNode w with
  | none =>
    some { status := WorkflowStatus.error, data := inputData,
           error := some "No start node found in workflow", endTimeSet := true }
  | some start =>
    match executeNodeChain reg fuel w start inputData with
    | none => none
    | some (Except.error e) =>
      some { status := WorkflowStatus.error, data := inputData,
             error := some e, endTimeSet := true }
    | some (Except.ok result) =>
      some { status := WorkflowStatus.success, data := result,
             error := none, endTimeSet := true }

/-- The node ids executed by a whole `executeWorkflow` run. -/
def workflowTrace (reg : Registry) (fuel : Nat) (w : WorkflowDefinition)
    (inputData : WData) : List String :=
  match findStartNode w with
  | none => []
  | some start => chainTrace reg fuel w start inputData

/-- A node type that returns its input unchanged (the spec's `echo`). -/
def echoInst : NodeInst :=
  ⟨fun input => Except.ok { success := true, data := some input, error := none }⟩

/-- Constructor for the `echo` node type. -/
def echoCtor : NodeCtor := fun _ _ => echoInst

/-- A node type whose `execute` reports failure with a fixed error. -/
def failCtor (msg : String) : NodeCtor :=
  fun _ _ => ⟨fun _ => Except.ok { success := false, data := none, error := some msg }⟩

/-- Registry with only the `echo` type. -/
def echoReg : Registry := [("echo", echoCtor)]

/-- The spec's concrete scenario workflow: one `echo` node, no connections. -/
def w7 : WorkflowDefinition :=
  { id := "w7", name := "echo workflow",
    nodes := [{ id := "n1", type := "echo", name := "n1", parameters := [],
                credentials := none }],
    connections := [] }

/-- C7: the single-echo-node workflow on input x=1 succeeds with data x=1.
Running `executeWorkflow` on the definition with one `echo` node `n1` and no
connections, with `inputData = x mapped to 1`, yields an execution record with
status `success` and data `x mapped to 1`. -/
theorem C7_echo_scenario :
    executeWorkflow echoReg 2 w7 [("x", Val.num 1)] =
      some { status := WorkflowStatus.success, data := [("x", Val.num 1)],
             error := none, endTimeSet := true } := by
  rfl

/-! ## C1: start-node resolution -/

/-- "The id appears as a connection target anywhere in the connections map"
(the property the spec states `findStartNode` tests). -/
def isTargetB (w : WorkflowDefinition) (id : String) : Bool :=
  w.connections.any (fun kv => kv.2.any (fun c => c.node = id))

theorem mem_connectedNodeIds_iff (w : WorkflowDefinition) (id : String) :
    id ∈ connectedNodeIds w ↔ isTargetB w id = true := by
  simp only [connectedNodeIds, List.mem_flatten, List.mem_map, isTargetB,
    List.any_eq_true, decide_eq_true_eq]
  constructor
  · rintro ⟨_, ⟨kv, hkv, rfl⟩, hid⟩
    rcases List.mem_map.mp hid with ⟨c, hc, rfl⟩
    exact ⟨kv, hkv, c, hc, rfl⟩
  · rintro ⟨kv, hkv, c, hc, rfl⟩
    exact ⟨kv.2.map (fun c => c.node), ⟨kv, hkv, rfl⟩, List.mem_map.mpr ⟨c, hc, rfl⟩⟩

theorem findStartNodeAux_eq_some (connected : List String) :
    ∀ l n, findStartNodeAux connected l = some n →
      ∃ pre post, l = pre ++ n :: post ∧ connected.contains n.id = false ∧
        ∀ m ∈ pre, connected.contains m.id = true := by
  intro l
  induction l with
  | nil => intro n h; simp [findStartNodeAux] at h
  | cons hd tl ih =>
    intro n h
    by_cases hc : connected.contains hd.id
    · rw [findStartNodeAux, if_pos hc] at h
      rcases ih n h with ⟨pre, post, hl, hn, hpre⟩
      refine ⟨hd :: pre, post, by rw [hl]; rfl, hn, ?_⟩
      intro m hm
      rcases List.mem_cons.mp hm with rfl | hm
      · exact hc
      · exact hpre m hm
    · rw [findStartNodeAux, if_neg hc] at h
      cases h
      exact ⟨[], tl, rfl, Bool.not_eq_true _ ▸ (by simpa using hc), by simp⟩

theorem findStartNodeAux_first (connected : List String) :
    ∀ pre (n : WorkflowNode) post, connected.contains n.id = false →
      (∀ m ∈ pre, connected.contains m.id = true) →
      findStartNodeAux connected (pre ++ n :: post) = some n := by
  intro pre
  induction pre with
  | nil =>
    intro n post hn _
    rw [List.nil_append, findStartNodeAux,
      if_neg (by rw [hn]; exact Bool.false_ne_true)]
  | cons hd tl ih =>
    intro n post hn hpre
    rw [List.cons_append, findStartNodeAux,
      if_pos (hpre hd (List.mem_cons_self hd tl))]
    exact ih n post hn (fun m hm => hpre m (List.mem_cons_of_mem hd hm))

theorem findStartNodeAux_eq_none (connected : List String) :
    ∀ l, (∀ m ∈ l, connected.contains m.id = true) →
      findStartNodeAux connected l = none := by
  intro l
  induction l with
  | nil => intro _; rfl
  | cons hd tl ih =>
    intro h
    rw [findStartNodeAux, if_pos (h hd (List.mem_cons_self hd tl)), ih]
    intro m hm
    exact h m (List.mem_cons_of_mem hd hm)

theorem contains_connectedNodeIds (w : WorkflowDefinition) (id : String) :
    (connectedNodeIds w).contains id = isTargetB w id := by
  have hdec : (connectedNodeIds w).contains id = decide (id ∈ connectedNodeIds w) := by
    simp [List.contains, List.elem_eq_mem]
  rw [hdec]
  by_cases h : isTargetB w id = true
  · rw [h, decide_eq_true_eq]
    exact (mem_connectedNodeIds_iff w id).mpr h
  · rw [Bool.not_eq_true] at h
    rw [h, decide_eq_false_iff_not]
    intro hmem
    have hmem' := (mem_connectedNodeIds_iff w id).mp hmem
    rw [h] at hmem'
    cases hmem'

/-- C1: start-node resolution.  (a) When `findStartNode` returns a node, that
node is the first in declaration order whose id appears nowhere as a
connection target, every earlier node being a target.  (b) Conversely,
whenever the declaration order splits as `pre ++ n :: post` with every node
of `pre` a connection target and `n` not one — i.e. `n` is the first node
whose id appears nowhere as a connection target — resolution RETURNS that
node.  (c) When every node id is a connection target (self-loop and empty
cases included), `executeWorkflow` returns a record with status `error`
reporting that no start node was found, for any registry, fuel and input. -/
theorem C1_start_node_resolution (w : WorkflowDefinition) :
    (∀ n, findStartNode w = some n →
      ∃ pre post, w.nodes = pre ++ n :: post ∧ isTargetB w n.id = false ∧
        ∀ m ∈ pre, isTargetB w m.id = true)
    ∧ (∀ pre (n : WorkflowNode) post, w.nodes = pre ++ n :: post →
        isTargetB w n.id = false → (∀ m ∈ pre, isTargetB w m.id = true) →
        findStartNode w = some n)
    ∧ ((∀ n ∈ w.nodes, isTargetB w n.id = true) →
      ∀ reg fuel input, executeWorkflow reg fuel w input =
        some { status := WorkflowStatus.error, data := input,
               error := some "No start node found in workflow", endTimeSet := true }) := by
  refine ⟨?_, ?_, ?_⟩
  · intro n h
    rcases findStartNodeAux_eq_some (connectedNodeIds w) w.nodes n h with
      ⟨pre, post, hl, hn, hpre⟩
    refine ⟨pre, post, hl, ?_, ?_⟩
    · rw [← contains_connectedNodeIds]; exact hn
    · intro m hm; rw [← contains_connectedNodeIds]; exact hpre m hm
  · intro pre n post hl hn hpre
    rw [findStartNode, hl]
    apply findStartNodeAux_first
    · rw [contains_connectedNodeIds]; exact hn
    · intro m hm
      rw [contains_connectedNodeIds]
      exact hpre m hm
  · intro h reg fuel input
    have hnone : findStartNode w = none := by
      apply findStartNodeAux_eq_none
      intro m hm
      rw [contains_connectedNodeIds]
      exact h m hm
    rw [executeWorkflow, hnone]

/-- A workflow whose single node has a self-loop: every node is a target. -/
def wSelfLoop : WorkflowDefinition :=
  { id := "wsl", name := "self loop",
    nodes := [{ id := "n1", type := "echo", name := "n1", parameters := [],
                credentials := none }],
    connections := [("n1", [{ node := "n1", type := "main", index := 0 }])] }

/-- First declared node of `wSecondStart`; it is a connection target. -/
def spN1 : WorkflowNode :=
  { id := "n1", type := "echo", name := "n1", parameters := [], credentials := none }

/-- Second declared node of `wSecondStart`; no incoming connection. -/
def spN2 : WorkflowNode :=
  { id := "n2", type := "echo", name := "n2", parameters := [], credentials := none }

/-- n2 feeds n1, so n1 (declared first) is a target and n2 is the start. -/
def wSecondStart : WorkflowDefinition :=
  { id := "wss", name := "second node starts",
    nodes := [spN1, spN2],
    connections := [("n2", [{ node := "n1", type := "main", index := 0 }])] }

/-- Witness for C1 exercising both halves: on `wSecondStart` resolution
returns the first unreferenced node n2 (skipping the earlier target n1),
and on the single-node self-loop workflow the run errors. -/
theorem C1_start_node_resolution_witness :
    findStartNode wSecondStart = some spN2 ∧
    executeWorkflow [] 1 wSelfLoop [("y", Val.bool true)] =
      some { status := WorkflowStatus.error, data := [("y", Val.bool true)],
             error := some "No start node found in workflow", endTimeSet := true } :=
  ⟨(C1_start_node_resolution wSecondStart).2.1 [spN1] spN2 [] rfl (by decide)
      (by decide),
   (C1_start_node_resolution wSelfLoop).2.2 (by decide) [] 1 [("y", Val.bool true)]⟩

/-! ## C2: a `success:false` result aborts the run -/

/-- `Reaches reg w n d pre m d'`: starting the chain at node `n` with data
`d`, after the successful executions recorded in `pre` (their ids in order),
the chain is about to execute node `m` with input data `d'`. -/
inductive Reaches (reg : Registry) (w : WorkflowDefinition) :
    WorkflowNode → WData → List String → WorkflowNode → WData → Prop
  | refl (n : WorkflowNode) (d : WData) : Reaches reg w n d [] n d
  | step {n : WorkflowNode} {d : WData} {inst : NodeInst} {r : NodeExecuteResult}
      {next : WorkflowNode} {rest : List WorkflowNode} {pre : List String}
      {m : WorkflowNode} {d' : WData} :
      createNodeInstance reg n w = Except.ok inst →
      inst.execute d = Except.ok r →
      r.success = true →
      getNextNodes w n.id = next :: rest →
      Reaches reg w next (r.data.getD []) pre m d' →
      Reaches reg w n d (n.id :: pre) m d'

theorem chain_aborts_at_failure (reg : Registry) (w : WorkflowDefinition) :
    ∀ pre n d nf dIn inst r,
      Reaches reg w n d pre nf dIn →
      createNodeInstance reg nf w = Except.ok inst →
      inst.execute dIn = Except.ok r →
      r.success = false →
      ∀ fuel, pre.length < fuel →
        executeNodeChain reg fuel w n d = some (Except.error (failMsg r)) ∧
        chainTrace reg fuel w n d = pre ++ [nf.id] := by
  intro pre n d nf dIn inst r hreach
  induction hreach with
  | refl n d =>
    intro hinst hexec hfail fuel hfuel
    match fuel, hfuel with
    | fuel + 1, _ =>
      simp [executeNodeChain, chainTrace, hinst, hexec, hfail]
  | step hinst0 hexec0 hsucc0 hnext0 _ ih =>
    intro hinst hexec hfail fuel hfuel
    match fuel, hfuel with
    | fuel + 1, hfuel =>
      have hlt : _ < fuel := Nat.lt_of_succ_lt_succ (by simpa using hfuel)
      rcases ih hinst hexec hfail fuel hlt with ⟨h1, h2⟩
      simp [executeNodeChain, chainTrace, hinst0, hexec0, hsucc0, hnext0, h1, h2]

/-- C2: if, at any point of the run, the current node's `execute` returns a
result with `success = false`, the execution record has status `error` whose
error string is exactly "Node execution failed: " followed by the node's
reported error (so it contains that error), and the list of executed nodes
ends at the failing node — no node after it is ever executed. -/
theorem C2_failure_aborts_run (reg : Registry) (w : WorkflowDefinition)
    (s : WorkflowNode) (input : WData) (pre : List String) (nf : WorkflowNode)
    (dIn : WData) (inst : NodeInst) (r : NodeExecuteResult) (fuel : Nat)
    (h0 : findStartNode w = some s)
    (h1 : Reaches reg w s input pre nf dIn)
    (h2 : createNodeInstance reg nf w = Except.ok inst)
    (h3 : inst.execute dIn = Except.ok r)
    (h4 : r.success = false)
    (h5 : pre.length < fuel) :
    executeWorkflow reg fuel w input =
      some { status := WorkflowStatus.error, data := input,
             error := some ("Node execution failed: " ++ r.error.getD "undefined"),
             endTimeSet := true } ∧
    workflowTrace reg fuel w input = pre ++ [nf.id] := by
  rcases chain_aborts_at_failure reg w pre s input nf dIn inst r h1 h2 h3 h4 fuel h5 with
    ⟨hchain, htrace⟩
  simp [executeWorkflow, workflowTrace, h0, hchain, htrace, failMsg]

/-- Registry for the C2 witness: an `echo` type and a failing `boom` type. -/
def c2Reg : Registry := [("echo", echoCtor), ("boom", failCtor "boom")]

/-- Two-node chain n1 (echo) then n2 (boom, reports failure). -/
def wC2 : WorkflowDefinition :=
  { id := "wc2", name := "failing chain",
    nodes := [{ id := "n1", type := "echo", name := "n1", parameters := [],
                credentials := none },
              { id := "n2", type := "boom", name := "n2", parameters := [],
                credentials := none }],
    connections := [("n1", [{ node := "n2", type := "main", index := 0 }])] }

/-- Witness for C2: in the two-node chain where n2 reports failure "boom",
the run errors with the wrapped message and the trace stops at n2. -/
theorem C2_failure_aborts_run_witness :
    executeWorkflow c2Reg 3 wC2 [] =
      some { status := WorkflowStatus.error, data := [],
             error := some ("Node execution failed: " ++
               (some "boom" : Option String).getD "undefined"),
             endTimeSet := true } ∧
    workflowTrace c2Reg 3 wC2 [] = ["n1"] ++ ["n2"] := by
  refine C2_failure_aborts_run c2Reg wC2
    { id := "n1", type := "echo", name := "n1", parameters := [], credentials := none }
    [] ["n1"]
    { id := "n2", type := "boom", name := "n2", parameters := [], credentials := none }
    [] (failCtor "boom"
      { id := "n2", type := "boom", name := "n2", parameters := [], credentials := none } [])
    { success := false, data := none, error := some "boom" } 3
    rfl ?_ rfl rfl rfl (by decide)
  exact Reaches.step rfl rfl rfl rfl (Reaches.refl _ _)

/-! ## C3: only the first declared successor is followed -/

/-- `id` is the first existing declared target of some node id `src`. -/
def isFirstTarget (w : WorkflowDefinition) (id : String) : Prop :=
  ∃ src n, (getNextNodes w src).head? = some n ∧ n.id = id

/-- Three echo nodes; n1 declares successors [n2, n3] and n2 declares [n3]. -/
def wC3 : WorkflowDefinition :=
  { id := "wc3", name := "fan-out",
    nodes := [{ id := "n1", type := "echo", name := "n1", parameters := [],
                credentials := none },
              { id := "n2", type := "echo", name := "n2", parameters := [],
                credentials := none },
              { id := "n3", type := "echo", name := "n3", parameters := [],
                credentials := none }],
    connections := [("n1", [{ node := "n2", type := "main", index := 0 },
                            { node := "n3", type := "main", index := 0 }]),
                    ("n2", [{ node := "n3", type := "main", index := 0 }])] }

/-- Counterexample to C3 as stated: in `wC3`, node n1 has the two declared
successors n2 and n3, yet the additional declared target n3 IS executed
(it is reached again as n2's first target), so "every additional declared
target is never instantiated or executed" fails on this input. -/
theorem C3_counterexample_extra_target_executed :
    (getNextNodes wC3 "n1").map (fun n => n.id) = ["n2", "n3"] ∧
    workflowTrace echoReg 5 wC3 [] = ["n1", "n2", "n3"] := by
  constructor <;> rfl

/-- C3 amended: (a) after a node whose `execute` succeeded, the chain
continues with exactly the first entry of `getNextNodes` (the remaining
declared targets are not followed from that node, whatever they are); (b)
every node id the run ever executes is the id of the node the chain started
at or the first existing declared target of some node — so an additional
declared target that is not also reachable as a first target is never
executed.  (The counterexample shows an additional target that is reachable
as another node's first target does execute, which is all the original claim
must give up.) -/
theorem C3_first_successor_only (reg : Registry) (w : WorkflowDefinition) :
    (∀ fuel cur input inst r next rest,
      createNodeInstance reg cur w = Except.ok inst →
      inst.execute input = Except.ok r →
      r.success = true →
      getNextNodes w cur.id = next :: rest →
      executeNodeChain reg (fuel + 1) w cur input =
        executeNodeChain reg fuel w next (r.data.getD []) ∧
      chainTrace reg (fuel + 1) w cur input =
        cur.id :: chainTrace reg fuel w next (r.data.getD []))
    ∧ (∀ fuel cur input id, id ∈ chainTrace reg fuel w cur input →
        id = cur.id ∨ isFirstTarget w id) := by
  constructor
  · intro fuel cur input inst r next rest hinst hexec hsucc hnext
    simp [executeNodeChain, chainTrace, hinst, hexec, hsucc, hnext]
  · intro fuel
    induction fuel with
    | zero => intro cur input id h; simp [chainTrace] at h
    | succ fuel ih =>
      intro cur input id h
      rw [chainTrace] at h
      rcases hinst : createNodeInstance reg cur w with e | inst
      · simp only [hinst] at h
        simp at h
      · simp only [hinst] at h
        rcases hexec : inst.execute input with e | r
        · simp only [hexec] at h
          simp at h
          exact Or.inl h
        · simp only [hexec] at h
          by_cases hsucc : r.success = true
          · simp only [hsucc, if_true] at h
            rcases hnext : getNextNodes w cur.id with _ | ⟨next, rest⟩
            · simp only [hnext] at h
              simp at h
              exact Or.inl h
            · simp only [hnext] at h
              rcases List.mem_cons.mp h with rfl | htl
              · exact Or.inl rfl
              · rcases ih next (r.data.getD []) id htl with rfl | hft
                · exact Or.inr ⟨cur.id, next, by rw [hnext]; rfl, rfl⟩
                · exact Or.inr hft
          · simp only [Bool.not_eq_true] at hsucc
            simp only [hsucc, Bool.false_eq_true, if_false] at h
            simp at h
            exact Or.inl h

/-- Witness for C3 amended, at `wC3`: the step after n1 continues with the
chain from n2 alone. -/
theorem C3_first_successor_only_witness :
    executeNodeChain echoReg 2 wC3
        { id := "n1", type := "echo", name := "n1", parameters := [], credentials := none }
        [] =
      executeNodeChain echoReg 1 wC3
        { id := "n2", type := "echo", name := "n2", parameters := [], credentials := none }
        ((some ([] : WData)).getD []) ∧
    chainTrace echoReg 2 wC3
        { id := "n1", type := "echo", name := "n1", parameters := [], credentials := none }
        [] =
      "n1" :: chainTrace echoReg 1 wC3
        { id := "n2", type := "echo", name := "n2", parameters := [], credentials := none }
        ((some ([] : WData)).getD []) :=
  (C3_first_successor_only echoReg wC3).1 1
    { id := "n1", type := "echo", name := "n1", parameters := [], credentials := none }
    [] echoInst { success := true, data := some [], error := none }
    { id := "n2", type := "echo", name := "n2", parameters := [], credentials := none }
    [{ id := "n3", type := "echo", name := "n3", parameters := [], credentials := none }]
    rfl rfl rfl rfl

/-! ## C4: merge of a node's own output with the pass-through input -/

theorem objGet_cons (a : String) (b : Val) (t : WData) (k : String) :
    objGet ((a, b) :: t) k = if a = k then some b else objGet t k := by
  by_cases h : a = k
  · simp [objGet, List.find?, h]
  · simp [objGet, List.find?, h]

theorem objGet_map_overwrite (k1 : String) (v1 : Val) (k : String) (hne : k1 ≠ k) :
    ∀ o : WData,
      objGet (o.map (fun p => if p.1 = k1 then (k1, v1) else p)) k = objGet o k := by
  intro o
  induction o with
  | nil => rfl
  | cons q t ih =>
    obtain ⟨a, b⟩ := q
    simp only [List.map_cons]
    by_cases hq : a = k1
    · rw [if_pos (by simpa using hq), objGet_cons, if_neg hne, ih, objGet_cons,
        if_neg (by rw [hq]; exact hne)]
    · rw [if_neg (by simpa using hq), objGet_cons, objGet_cons, ih]

theorem objGet_append_single (k1 : String) (v1 : Val) (k : String) (hne : k1 ≠ k) :
    ∀ o : WData, objGet (o ++ [(k1, v1)]) k = objGet o k := by
  intro o
  induction o with
  | nil => simp [objGet, List.find?, hne]
  | cons q t ih =>
    cases q
    rw [List.cons_append, objGet_cons, objGet_cons, ih]

theorem objGet_objInsert_ne (o : WData) (k1 : String) (v1 : Val) (k : String)
    (hne : k1 ≠ k) : objGet (objInsert o k1 v1) k = objGet o k := by
  rw [objInsert]
  by_cases hany : o.any (fun p => p.1 = k1)
  · rw [if_pos hany, objGet_map_overwrite k1 v1 k hne]
  · rw [if_neg hany, objGet_append_single k1 v1 k hne]

theorem objGet_map_overwrite_self (k : String) (v1 : Val) :
    ∀ o : WData, o.any (fun p => p.1 = k) = true →
      objGet (o.map (fun p => if p.1 = k then (k, v1) else p)) k = some v1 := by
  intro o
  induction o with
  | nil => intro h; simp at h
  | cons q t ih =>
    intro h
    obtain ⟨a, b⟩ := q
    simp only [List.map_cons]
    by_cases hq : a = k
    · rw [if_pos (by simpa using hq), objGet_cons, if_pos rfl]
    · rw [if_neg (by simpa using hq), objGet_cons, if_neg hq]
      apply ih
      simp only [List.any_cons, Bool.or_eq_true_iff] at h
      rcases h with h | h
      · exact absurd (by simpa using h) hq
      · exact h

theorem objGet_append_self (k : String) (v1 : Val) :
    ∀ o : WData, o.any (fun p => p.1 = k) = false →
      objGet (o ++ [(k, v1)]) k = some v1 := by
  intro o
  induction o with
  | nil => intro _; simp [objGet, List.find?]
  | cons q t ih =>
    intro h
    obtain ⟨a, b⟩ := q
    simp only [List.any_cons, Bool.or_eq_false_iff] at h
    rw [List.cons_append, objGet_cons, if_neg (by simpa using h.1)]
    exact ih (by simpa using h.2)

theorem objGet_objInsert_self (o : WData) (k : String) (v1 : Val) :
    objGet (objInsert o k v1) k = some v1 := by
  rw [objInsert]
  by_cases hany : o.any (fun p => p.1 = k)
  · rw [if_pos hany]
    exact objGet_map_overwrite_self k v1 o hany
  · rw [if_neg hany]
    exact objGet_append_self k v1 o (by rwa [Bool.not_eq_true] at hany)

theorem objGet_objSpread_not_mem (k : String) :
    ∀ (src : WData) (o : WData), k ∉ src.map (fun p => p.1) →
      objGet (objSpread o src) k = objGet o k := by
  intro src
  induction src with
  | nil => intro o _; rfl
  | cons p t ih =>
    intro o hk
    simp only [List.map_cons, List.mem_cons, not_or] at hk
    rw [objSpread, List.foldl_cons]
    have step : objGet (objSpread (objInsert o p.1 p.2) t) k =
        objGet (objInsert o p.1 p.2) k := ih (objInsert o p.1 p.2) hk.2
    rw [objSpread] at step
    rw [step, objGet_objInsert_ne o p.1 p.2 k (fun h => hk.1 h.symm)]

theorem objGet_objSpread_of_mem (k : String) (v : Val) :
    ∀ (src : WData) (o : WData), (src.map (fun p => p.1)).Nodup →
      objGet src k = some v → objGet (objSpread o src) k = some v := by
  intro src
  induction src with
  | nil => intro o _ h; simp [objGet, List.find?] at h
  | cons p t ih =>
    intro o hnd hget
    rw [List.map_cons, List.nodup_cons] at hnd
    cases p with
    | mk a b =>
      rw [objGet_cons] at hget
      rw [objSpread, List.foldl_cons]
      by_cases ha : a = k
      · rw [if_pos ha] at hget
        injection hget with hbv
        have hnot : k ∉ t.map (fun p => p.1) := ha ▸ hnd.1
        have hstep := objGet_objSpread_not_mem k t (objInsert o a b) hnot
        rw [objSpread] at hstep
        rw [hstep, ha, objGet_objInsert_self, hbv]
      · rw [if_neg ha] at hget
        have := ih (objInsert o a b) hnd.2 hget
        rw [objSpread] at this
        rw [this]

/-- The object literal built by `AndroidNode.execute` on success
(`nodes/android/AndroidNode.ts` lines 71-78): own keys first, then
`...inputData`. -/
def androidExecuteData (command projectPath stdout stderr : Val) (inputData : WData) :
    WData :=
  objSpread (objOfList [("command", command), ("projectPath", projectPath),
    ("stdout", stdout), ("stderr", stderr), ("success", Val.bool true)]) inputData

/-- The object literal built by `GoogleChatNode.sendMessage` on success
(`nodes/google/GoogleChatNode.ts` lines 130-139). -/
def googleChatSendMessageData (messageId spaceId messageText threadId : Val)
    (inputData : WData) : WData :=
  objSpread (objOfList [("operation", Val.str "sendMessage"),
    ("success", Val.bool true), ("messageId", messageId), ("spaceId", spaceId),
    ("messageText", messageText), ("threadId", threadId)]) inputData

/-- The object literal built by `JiraNode.getTicket` on success
(`nodes/jira/JiraNode.ts` lines 248-261): the `ticket` key, then
`...inputData`. -/
def jiraGetTicketData (ticket : Val) (inputData : WData) : WData :=
  objSpread (objOfList [("ticket", ticket)]) inputData

/-- Counterexample to C4 as stated: in `AndroidNode.execute` the spread
`...inputData` comes AFTER the node's own keys, so on the conflicting key
"command" the merged value is the input's "fromInput", not the node's own
"yarn build" — the node's own keys do NOT win on conflict. -/
theorem C4_counterexample_input_wins :
    objGet (androidExecuteData (Val.str "yarn build") (Val.str "/p") (Val.str "out")
        (Val.str "") [("command", Val.str "fromInput")]) "command" =
      some (Val.str "fromInput") ∧
    some (Val.str "fromInput") ≠ some (Val.str "yarn build") := by
  constructor
  · rfl
  · simp

/-- C4 amended: each success result of the three node implementations is a
shallow merge of the node's own output keys with the pass-through input data
bag in which the INPUT's keys win on conflict: for every key present in the
input data (the input being a well-formed object with distinct keys), the
merged value is the input's value, whatever the node's own value was. -/
theorem C4_shallow_merge_input_wins
    (command projectPath stdout stderr messageId spaceId messageText threadId
      ticket : Val) (inputData : WData) (k : String) (v : Val)
    (hnd : (inputData.map (fun p => p.1)).Nodup)
    (hv : objGet inputData k = some v) :
    objGet (androidExecuteData command projectPath stdout stderr inputData) k = some v ∧
    objGet (googleChatSendMessageData messageId spaceId messageText threadId inputData) k
      = some v ∧
    objGet (jiraGetTicketData ticket inputData) k = some v :=
  ⟨objGet_objSpread_of_mem k v inputData _ hnd hv,
   objGet_objSpread_of_mem k v inputData _ hnd hv,
   objGet_objSpread_of_mem k v inputData _ hnd hv⟩

/-- Witness for C4 amended at a concrete conflicting input. -/
theorem C4_shallow_merge_input_wins_witness :
    objGet (androidExecuteData (Val.str "c") (Val.str "p") (Val.str "o") (Val.str "e")
        [("command", Val.num 7)]) "command" = some (Val.num 7) ∧
    objGet (googleChatSendMessageData Val.null Val.null Val.null Val.null
        [("command", Val.num 7)]) "command" = some (Val.num 7) ∧
    objGet (jiraGetTicketData Val.null [("command", Val.num 7)]) "command" =
      some (Val.num 7) :=
  C4_shallow_merge_input_wins (Val.str "c") (Val.str "p") (Val.str "o") (Val.str "e")
    Val.null Val.null Val.null Val.null Val.null [("command", Val.num 7)] "command"
    (Val.num 7) (by simp) rfl

/-! ## C5, C9, C10: the shape of the returned execution record -/

/-- C5: every failure reason is surfaced as a structured execution record and
never as an escaping exception.  (a) A missing start node yields the
status-`error` record with the fixed message; (b) any throw inside the chain
(unknown node type, a node's `execute` throwing, or a `success:false`
result — the three `Except.error` producers of `executeNodeChain`) yields a
status-`error` record carrying that message as a string; (c) every record
`executeWorkflow` returns is either a `success` record with no error or an
`error` record with a string message — the embedding's total codomain is the
`catch`-all of the source's `try`/`catch`, so no exception can propagate. -/
theorem C5_structured_failure (reg : Registry) (fuel : Nat) (w : WorkflowDefinition)
    (input : WData) :
    (findStartNode w = none →
      executeWorkflow reg fuel w input =
        some { status := WorkflowStatus.error, data := input,
               error := some "No start node found in workflow", endTimeSet := true })
    ∧ (∀ s e, findStartNode w = some s →
        executeNodeChain reg fuel w s input = some (Except.error e) →
        executeWorkflow reg fuel w input =
          some { status := WorkflowStatus.error, data := input,
                 error := some e, endTimeSet := true })
    ∧ (∀ ex, executeWorkflow reg fuel w input = some ex →
        (ex.status = WorkflowStatus.error ∧ ex.error.isSome = true) ∨
        (ex.status = WorkflowStatus.success ∧ ex.error = none)) := by
  refine ⟨?_, ?_, ?_⟩
  · intro h
    simp [executeWorkflow, h]
  · intro s e hs hchain
    simp [executeWorkflow, hs, hchain]
  · intro ex hex
    rw [executeWorkflow] at hex
    rcases hstart : findStartNode w with _ | s
    · simp only [hstart] at hex
      simp only [Option.some.injEq] at hex
      subst hex
      exact Or.inl ⟨rfl, rfl⟩
    · simp only [hstart] at hex
      rcases hchain : executeNodeChain reg fuel w s input with _ | res
      · simp only [hchain] at hex
        cases hex
      · simp only [hchain] at hex
        rcases res with e | d
        · simp only [Option.some.injEq] at hex
          subst hex
          exact Or.inl ⟨rfl, rfl⟩
        · simp only [Option.some.injEq] at hex
          subst hex
          exact Or.inr ⟨rfl, rfl⟩

/-- A workflow with an unregistered node type, for the C5 witness. -/
def wUnknown : WorkflowDefinition :=
  { id := "wu", name := "unknown type",
    nodes := [{ id := "n1", type := "mystery", name := "n1", parameters := [],
                credentials := none }],
    connections := [] }

/-- Witness for C5: the unknown-node-type failure is returned as a
status-`error` record carrying the thrown message. -/
theorem C5_structured_failure_witness :
    executeWorkflow [] 1 wUnknown [] =
      some { status := WorkflowStatus.error, data := [],
             error := some "Unknown node type: mystery", endTimeSet := true } :=
  (C5_structured_failure [] 1 wUnknown []).2.1
    { id := "n1", type := "mystery", name := "n1", parameters := [], credentials := none }
    "Unknown node type: mystery" rfl rfl

/-- C9 (implicit): every execution record `executeWorkflow` returns has
status `success` or `error` — never `running` or `cancelled`, although the
`WorkflowStatus` type has those constructors — and its `endTime` was
assigned. -/
theorem C9_status_success_or_error (reg : Registry) (fuel : Nat)
    (w : WorkflowDefinition) (input : WData) (ex : WorkflowExecution)
    (h : executeWorkflow reg fuel w input = some ex) :
    (ex.status = WorkflowStatus.success ∨ ex.status = WorkflowStatus.error) ∧
    ex.status ≠ WorkflowStatus.running ∧ ex.status ≠ WorkflowStatus.cancelled ∧
    ex.endTimeSet = true := by
  rw [executeWorkflow] at h
  rcases hstart : findStartNode w with _ | s
  · simp only [hstart] at h
    simp only [Option.some.injEq] at h
    subst h
    exact ⟨Or.inr rfl, by simp, by simp, rfl⟩
  · simp only [hstart] at h
    rcases hchain : executeNodeChain reg fuel w s input with _ | res
    · simp only [hchain] at h
      cases h
    · simp only [hchain] at h
      rcases res with e | d
      · simp only [Option.some.injEq] at h
        subst h
        exact ⟨Or.inr rfl, by simp, by simp, rfl⟩
      · simp only [Option.some.injEq] at h
        subst h
        exact ⟨Or.inl rfl, by simp, by simp, rfl⟩

/-- Witness for C9 at a concrete returned record (the no-start-node error
record of the self-loop workflow). -/
theorem C9_status_success_or_error_witness :
    (({ status := WorkflowStatus.error, data := [],
        error := some "No start node found in workflow",
        endTimeSet := true } : WorkflowExecution).status = WorkflowStatus.success ∨
     ({ status := WorkflowStatus.error, data := [],
        error := some "No start node found in workflow",
        endTimeSet := true } : WorkflowExecution).status = WorkflowStatus.error) ∧
    ({ status := WorkflowStatus.error, data := [],
       error := some "No start node found in workflow",
       endTimeSet := true } : WorkflowExecution).status ≠ WorkflowStatus.running ∧
    ({ status := WorkflowStatus.error, data := [],
       error := some "No start node found in workflow",
       endTimeSet := true } : WorkflowExecution).status ≠ WorkflowStatus.cancelled ∧
    ({ status := WorkflowStatus.error, data := [],
       error := some "No start node found in workflow",
       endTimeSet := true } : WorkflowExecution).endTimeSet = true :=
  C9_status_success_or_error [] 1 wSelfLoop [] _ rfl

/-- C10 (implicit): a returned record with status `error` still carries the
original `inputData` as its `data` field — the accumulated payload is
replaced only on the fully successful path. -/
theorem C10_error_keeps_input_data (reg : Registry) (fuel : Nat)
    (w : WorkflowDefinition) (input : WData) (ex : WorkflowExecution)
    (h : executeWorkflow reg fuel w input = some ex)
    (herr : ex.status = WorkflowStatus.error) :
    ex.data = input := by
  rw [executeWorkflow] at h
  rcases hstart : findStartNode w with _ | s
  · simp only [hstart] at h
    simp only [Option.some.injEq] at h
    subst h
    rfl
  · simp only [hstart] at h
    rcases hchain : executeNodeChain reg fuel w s input with _ | res
    · simp only [hchain] at h
      cases h
    · simp only [hchain] at h
      rcases res with e | d
      · simp only [Option.some.injEq] at h
        subst h
        rfl
      · simp only [Option.some.injEq] at h
        subst h
        cases herr

/-- Witness for C10 at the unknown-node-type run with a nonempty input. -/
theorem C10_error_keeps_input_data_witness :
    ({ status := WorkflowStatus.error, data := [("x", Val.num 1)],
       error := some "Unknown node type: mystery",
       endTimeSet := true } : WorkflowExecution).data = [("x", Val.num 1)] :=
  C10_error_keeps_input_data [] 1 wUnknown [("x", Val.num 1)] _ rfl rfl

/-! ## C8: node-level credentials and required-credential validation -/

/-- JavaScript truthiness of a `Val` (the objects the repository actually
stores as credential values are always truthy; a missing key is falsy). -/
def truthyVal : Val → Bool
  | Val.str s => s ≠ ""
  | Val.num n => n ≠ 0
  | Val.bool b => b
  | Val.null => false

/-- Truthiness of `credentials[name]` (`undefined` for a missing key). -/
def credTruthy (o : Option Val) : Bool :=
  match o with
  | some v => truthyVal v
  | none => false

/-- `BaseNode.validateRequiredCredentials` (`nodes/BaseNode.ts` lines
52-58): throw on the first required name whose value is falsy or missing. -/
def validateRequiredCredentials (creds : WData) : List String → Except String Unit
  | [] => Except.ok ()
  | c :: rest =>
    if credTruthy (objGet creds c) then validateRequiredCredentials creds rest
    else Except.error ("Required credential '" ++ c ++ "' is missing")

/-- The `try`/`catch` shape of `JiraNode.execute` (`nodes/jira/JiraNode.ts`
lines 155-174): validate the `jiraApi` credential, then run the operation
dispatch (abstracted as `body`, whose `Except.error` is a thrown error);
any throw is converted to `createErrorResult`. -/
def jiraNodeExecute (creds : WData) (body : WData → Except String NodeExecuteResult)
    (input : WData) : NodeExecuteResult :=
  match validateRequiredCredentials creds ["jiraApi"] with
  | Except.error e => { success := false, data := none, error := some e }
  | Except.ok _ =>
    match body input with
    | Except.error e => { success := false, data := none, error := some e }
    | Except.ok r => r

/-- The same shape for `GoogleChatNode.execute`
(`nodes/google/GoogleChatNode.ts` lines 79-107), which requires the
`googleChatServiceAccount` credential. -/
def googleChatNodeExecute (creds : WData)
    (body : WData → Except String NodeExecuteResult) (input : WData) :
    NodeExecuteResult :=
  match validateRequiredCredentials creds ["googleChatServiceAccount"] with
  | Except.error e => { success := false, data := none, error := some e }
  | Except.ok _ =>
    match body input with
    | Except.error e => { success := false, data := none, error := some e }
    | Except.ok r => r

/-- C8: (a) `extractCredentials` is exactly the node definition's credential
bag (or the empty bag), and is independent of the workflow — no merging from
any workflow-level source; (b) the engine instantiates a registered type
with exactly that bag; (c) and (d): executing a Jira / Google Chat node
whose credential bag is missing the one required credential returns a
`success:false` result whose error names that credential. -/
theorem C8_node_level_credentials (reg : Registry) (node : WorkflowNode)
    (w w' : WorkflowDefinition) (creds : WData)
    (body body' : WData → Except String NodeExecuteResult) (input : WData) :
    extractCredentials node w = node.credentials.getD []
    ∧ extractCredentials node w = extractCredentials node w'
    ∧ (∀ ctor, regFind reg node.type = some ctor →
        createNodeInstance reg node w = Except.ok (ctor node (node.credentials.getD [])))
    ∧ (objGet creds "jiraApi" = none →
        jiraNodeExecute creds body input =
          { success := false, data := none,
            error := some "Required credential 'jiraApi' is missing" })
    ∧ (objGet creds "googleChatServiceAccount" = none →
        googleChatNodeExecute creds body' input =
          { success := false, data := none,
            error := some "Required credential 'googleChatServiceAccount' is missing" }) := by
  refine ⟨rfl, rfl, ?_, ?_, ?_⟩
  · intro ctor hctor
    rw [createNodeInstance, hctor]
    rfl
  · intro hmiss
    rw [jiraNodeExecute, validateRequiredCredentials, hmiss]
    rfl
  · intro hmiss
    rw [googleChatNodeExecute, validateRequiredCredentials, hmiss]
    rfl

/-- A bare Jira node definition without credentials, for the C8 witness. -/
def jiraNodeNoCreds : WorkflowNode :=
  { id := "n1", type := "jira", name := "n1", parameters := [], credentials := none }

/-- A body that succeeds by echoing its input, for the C8 witness. -/
def okBody : WData → Except String NodeExecuteResult :=
  fun d => Except.ok { success := true, data := some d, error := none }

/-- Witness for C8 with an empty credential bag: both node shapes fail
naming their required credential. -/
theorem C8_node_level_credentials_witness :
    jiraNodeExecute [] okBody [] =
      { success := false, data := none,
        error := some "Required credential 'jiraApi' is missing" } ∧
    googleChatNodeExecute [] okBody [] =
      { success := false, data := none,
        error := some "Required credential 'googleChatServiceAccount' is missing" } :=
  ⟨(C8_node_level_credentials [] jiraNodeNoCreds w7 w7 [] okBody okBody []).2.2.2.1 rfl,
   (C8_node_level_credentials [] jiraNodeNoCreds w7 w7 [] okBody okBody []).2.2.2.2 rfl⟩

/-! ## C6: cycles and termination of the chain walker -/

/-- The declared connection targets of node id `a`. -/
def connTargets (w : WorkflowDefinition) (a : String) : List String :=
  (connsOf w a).map (fun c => c.node)

/-- The connection graph's edge relation on node ids. -/
def EdgeP (w : WorkflowDefinition) (a b : String) : Prop := b ∈ connTargets w a

/-- Reachability (zero or more connection edges). -/
inductive ReachP (w : WorkflowDefinition) : String → String → Prop
  | refl (a : String) : ReachP w a a
  | tail {a b c : String} : ReachP w a b → EdgeP w b c → ReachP w a c

theorem reachP_trans {w : WorkflowDefinition} {a b c : String}
    (h1 : ReachP w a b) (h2 : ReachP w b c) : ReachP w a c := by
  induction h2 with
  | refl => exact h1
  | tail _ e ih => exact ReachP.tail ih e

theorem edge_reachP {w : WorkflowDefinition} {a b : String} (h : EdgeP w a b) :
    ReachP w a b :=
  ReachP.tail (ReachP.refl a) h

/-- The nodes the chain walker can step through from `s`: `s` itself, and
the FIRST existing declared target of any node already on the orbit (the
walker follows only first successors). -/
inductive OnOrbit (w : WorkflowDefinition) (s : WorkflowNode) : WorkflowNode → Prop
  | start : OnOrbit w s s
  | step {n m : WorkflowNode} {rest : List WorkflowNode} :
      OnOrbit w s n → getNextNodes w n.id = m :: rest → OnOrbit w s m

theorem findStartNodeAux_mem (connected : List String) :
    ∀ l n, findStartNodeAux connected l = some n → n ∈ l := by
  intro l
  induction l with
  | nil => intro n h; simp [findStartNodeAux] at h
  | cons hd tl ih =>
    intro n h
    by_cases hc : connected.contains hd.id
    · rw [findStartNodeAux, if_pos hc] at h
      exact List.mem_cons_of_mem hd (ih n h)
    · rw [findStartNodeAux, if_neg hc] at h
      cases h
      exact List.mem_cons_self hd tl

theorem findStartNode_mem {w : WorkflowDefinition} {n : WorkflowNode}
    (h : findStartNode w = some n) : n ∈ w.nodes :=
  findStartNodeAux_mem (connectedNodeIds w) w.nodes n h

theorem getNextNodes_mem {w : WorkflowDefinition} {a : String} {n : WorkflowNode}
    (h : n ∈ getNextNodes w a) : n ∈ w.nodes := by
  rw [getNextNodes] at h
  rcases List.mem_filterMap.mp h with ⟨c, _, hfind⟩
  exact List.mem_of_find?_eq_some hfind

theorem getNextNodes_edge {w : WorkflowDefinition} {a : String} {n : WorkflowNode}
    (h : n ∈ getNextNodes w a) : EdgeP w a n.id := by
  rw [getNextNodes] at h
  rcases List.mem_filterMap.mp h with ⟨c, hc, hfind⟩
  have hp : n.id = c.node := by simpa using List.find?_some hfind
  rw [EdgeP, connTargets, hp]
  exact List.mem_map.mpr ⟨c, hc, rfl⟩

/-- The node ids mentioned anywhere in the workflow: declared nodes plus all
connection targets.  Every id reachable from a declared node lives here. -/
def idUniverse (w : WorkflowDefinition) : List String :=
  w.nodes.map (fun n => n.id) ++ connectedNodeIds w

theorem mem_idUniverse_of_node {w : WorkflowDefinition} {n : WorkflowNode}
    (h : n ∈ w.nodes) : n.id ∈ idUniverse w :=
  List.mem_append_left _ (List.mem_map.mpr ⟨n, h, rfl⟩)

theorem mem_idUniverse_of_edge {w : WorkflowDefinition} {a b : String}
    (h : EdgeP w a b) : b ∈ idUniverse w := by
  rw [EdgeP, connTargets, connsOf] at h
  rcases hfind : w.connections.find? (fun kv => kv.1 = a) with _ | kv
  · rw [hfind] at h
    simp at h
  · rw [hfind] at h
    simp only [Option.map_some', Option.getD_some] at h
    apply List.mem_append_right
    rw [connectedNodeIds]
    exact List.mem_flatten.mpr
      ⟨kv.2.map (fun c => c.node),
       List.mem_map.mpr ⟨kv, List.mem_of_find?_eq_some hfind, rfl⟩, h⟩

/-- C6 amended.  Divergence half: when every node on the walker's orbit from
the start node has a registered type, an always-succeeding `execute` and at
least one existing successor, the chain walker never finishes — for every
fuel `executeWorkflow` is still running (`none`); the original claim must
add that proviso, since a failure inside the cycle (the counterexample's
unknown node type) terminates the run.  Termination half (as claimed): when
the connection graph restricted to the ids reachable from the start node has
no (nonempty) cycle, some fuel suffices and the run terminates. -/
theorem C6_cycles_and_termination (reg : Registry) (w : WorkflowDefinition)
    (s : WorkflowNode) (input : WData) (h0 : findStartNode w = some s) :
    ((∀ n, OnOrbit w s n →
        (∃ inst, createNodeInstance reg n w = Except.ok inst ∧
          ∀ d, ∃ r, inst.execute d = Except.ok r ∧ r.success = true) ∧
        getNextNodes w n.id ≠ []) →
      ∀ fuel, executeWorkflow reg fuel w input = none)
    ∧ ((∀ v t, ReachP w s.id v → EdgeP w v t → ¬ ReachP w t v) →
      ∃ fuel, (executeWorkflow reg fuel w input).isSome = true) := by
  constructor
  · intro hdiv fuel
    have main : ∀ f n input2, OnOrbit w s n →
        executeNodeChain reg f w n input2 = none := by
      intro f
      induction f with
      | zero => intro n input2 _; rfl
      | succ f ih =>
        intro n input2 horb
        rcases hdiv n horb with ⟨⟨inst, hinst, hexec⟩, hnonempty⟩
        rcases hexec input2 with ⟨r, hr, hsucc⟩
        rcases hn : getNextNodes w n.id with _ | ⟨m, rest⟩
        · exact absurd hn hnonempty
        · rw [executeNodeChain]
          simp only [hinst, hr, hsucc, if_true, hn]
          exact ih m (r.data.getD []) (OnOrbit.step horb hn)
    simp only [executeWorkflow, h0, main fuel s input OnOrbit.start]
  · intro hacyc
    classical
    have smem : s ∈ w.nodes := findStartNode_mem h0
    let U : Finset String := (idUniverse w).toFinset
    let R : String → Finset String := fun a => U.filter (fun v => ReachP w a v)
    have main : ∀ k, ∀ n, n ∈ w.nodes → ReachP w s.id n.id → (R n.id).card ≤ k →
        ∀ d, (executeNodeChain reg (k + 1) w n d).isSome = true := by
      intro k
      induction k using Nat.strong_induction_on with
      | _ k IH =>
        intro n hn hreach hcard d
        rw [executeNodeChain]
        rcases hinst : createNodeInstance reg n w with e | inst
        · simp
        · simp only []
          rcases hexec : inst.execute d with e | r
          · simp
          · simp only []
            by_cases hsucc : r.success = true
            · simp only [hsucc, if_true]
              rcases hnext : getNextNodes w n.id with _ | ⟨m, rest⟩
              · simp
              · have hmm : m ∈ getNextNodes w n.id := by
                  rw [hnext]; exact List.mem_cons_self m rest
                have hm_mem : m ∈ w.nodes := getNextNodes_mem hmm
                have hedge : EdgeP w n.id m.id := getNextNodes_edge hmm
                have hreach2 : ReachP w s.id m.id := ReachP.tail hreach hedge
                have hsub : R m.id ⊆ R n.id := by
                  intro v hv
                  rw [Finset.mem_filter] at hv
                  rw [Finset.mem_filter]
                  exact ⟨hv.1, reachP_trans (edge_reachP hedge) hv.2⟩
                have hnin : n.id ∉ R m.id := by
                  rw [Finset.mem_filter]
                  rintro ⟨_, hrv⟩
                  exact hacyc n.id m.id hreach hedge hrv
                have hin : n.id ∈ R n.id := by
                  rw [Finset.mem_filter]
                  exact ⟨List.mem_toFinset.mpr (mem_idUniverse_of_node hn),
                    ReachP.refl _⟩
                have hlt : (R m.id).card < (R n.id).card :=
                  Finset.card_lt_card
                    ((Finset.ssubset_iff_of_subset hsub).mpr ⟨n.id, hin, hnin⟩)
                have hkpos : 0 < k :=
                  lt_of_lt_of_le (Finset.card_pos.mpr ⟨n.id, hin⟩) hcard
                have hrwk : k = (k - 1) + 1 := (Nat.succ_pred_eq_of_pos hkpos).symm
                rw [hrwk]
                exact IH (k - 1) (by omega) m hm_mem hreach2 (by omega) (r.data.getD [])
            · simp [hsucc]
    refine ⟨(R s.id).card + 1, ?_⟩
    have hch := main (R s.id).card s smem (ReachP.refl s.id) le_rfl input
    rcases hc : executeNodeChain reg ((R s.id).card + 1) w s input with _ | res
    · rw [hc] at hch
      simp at hch
    · rcases res with e | dta
      · simp [executeWorkflow, h0, hc]
      · simp [executeWorkflow, h0, hc]

/-- First node of the looping/counterexample workflows. -/
def loopN1 : WorkflowNode :=
  { id := "n1", type := "echo", name := "n1", parameters := [], credentials := none }

/-- Second node of `wLoop` (an echo node with a self-loop). -/
def loopN2 : WorkflowNode :=
  { id := "n2", type := "echo", name := "n2", parameters := [], credentials := none }

/-- n1 feeds n2 and n2 loops on itself; both `echo`, so every execution
succeeds and the walker never stops. -/
def wLoop : WorkflowDefinition :=
  { id := "wloop", name := "loop",
    nodes := [loopN1, loopN2],
    connections := [("n1", [{ node := "n2", type := "main", index := 0 }]),
                    ("n2", [{ node := "n2", type := "main", index := 0 }])] }

theorem wLoop_orbit_cases :
    ∀ n, OnOrbit wLoop loopN1 n → n = loopN1 ∨ n = loopN2 := by
  intro n h
  induction h with
  | start => exact Or.inl rfl
  | step _ hnext ih =>
    rcases ih with rfl | rfl
    · have h2 : _ = _ :=
        (show getNextNodes wLoop loopN1.id = [loopN2] from rfl).symm.trans hnext
      injection h2 with h3 _
      exact Or.inr h3.symm
    · have h2 : _ = _ :=
        (show getNextNodes wLoop loopN2.id = [loopN2] from rfl).symm.trans hnext
      injection h2 with h3 _
      exact Or.inr h3.symm

theorem wLoop_orbit_total :
    ∀ n, OnOrbit wLoop loopN1 n →
      (∃ inst, createNodeInstance echoReg n wLoop = Except.ok inst ∧
        ∀ d, ∃ r, inst.execute d = Except.ok r ∧ r.success = true) ∧
      getNextNodes wLoop n.id ≠ [] := by
  intro n h
  rcases wLoop_orbit_cases n h with rfl | rfl
  · exact ⟨⟨echoInst, rfl, fun d => ⟨_, rfl, rfl⟩⟩, by decide⟩
  · exact ⟨⟨echoInst, rfl, fun d => ⟨_, rfl, rfl⟩⟩, by decide⟩

/-- Witness for C6's divergence half: on `wLoop`, with every orbit node an
always-succeeding echo with a successor, the run is still unfinished at
fuel 7 (and, by the theorem, at every fuel). -/
theorem C6_cycles_and_termination_witness :
    executeWorkflow echoReg 7 wLoop [] = none :=
  (C6_cycles_and_termination echoReg wLoop loopN1 [] rfl).1 wLoop_orbit_total 7

/-- Same shape as `wLoop`, but the looping node's type is not registered. -/
def wC6 : WorkflowDefinition :=
  { id := "wc6", name := "cycle that fails",
    nodes := [loopN1,
              { id := "n2", type := "mystery", name := "n2", parameters := [],
                credentials := none }],
    connections := [("n1", [{ node := "n2", type := "main", index := 0 }]),
                    ("n2", [{ node := "n2", type := "main", index := 0 }])] }

/-- Counterexample to C6 as stated: `wC6`'s connection graph has a cycle
(n2 to itself) among the nodes reachable from the start node n1, yet the
chain walker terminates — n2's unknown node type throws, so the run returns
an `error` record instead of recursing indefinitely. -/
theorem C6_counterexample_cycle_terminates :
    (findStartNode wC6).map (fun n => n.id) = some "n1" ∧
    ReachP wC6 "n1" "n2" ∧ EdgeP wC6 "n2" "n2" ∧ ReachP wC6 "n2" "n2" ∧
    executeWorkflow echoReg 5 wC6 [] =
      some { status := WorkflowStatus.error, data := [],
             error := some "Unknown node type: mystery", endTimeSet := true } := by
  refine ⟨rfl, ?_, ?_, ReachP.refl _, rfl⟩
  · exact edge_reachP (by rw [EdgeP]; decide)
  · rw [EdgeP]; decide

end AgentX
